import Mathlib

/-!
Verification of the nzthermo numeric core against its specification.

The definitions below are shallow embeddings of the C++ templated functions in
`src/lib/functional.cpp` and the `nzt` namespace of `src/nzthermo/_ufunc.pyx`.
Machine floating values are modelled as elements of a linear ordered field
(instantiated at ℚ for executable checks and at ℝ where the formulas need
exp/log/rpow); NaN-producing computations are modelled with `Option`, `none`
standing for NaN, following the spec's own convention that domain violations
propagate as NaN.
-/

namespace nzt

/-! ### MonotonicSearch (functional.cpp, `lower_bound` / `upper_bound` / `search_sorted`) -/

/-- Loop of `upper_bound(array, N, value, std::less_equal())`:
while `len > 1`, `half = len / 2`, `idx += !(value <= array[idx + half - 1]) * half`,
`len -= half`.  The array is modelled as a `List`, reads via `getD`. -/
def ub_go {α : Type} [LinearOrder α] [Inhabited α] (a : List α) (v : α) (len idx : ℕ) : ℕ :=
  if 1 < len then
    ub_go a v (len - len / 2)
      (idx + (if v ≤ a.getD (idx + len / 2 - 1) default then 0 else len / 2))
  else idx
termination_by len
decreasing_by omega

/-- Loop of `lower_bound(array, N, value, std::greater_equal())`:
`idx += (array[idx + half - 1] >= value) * half`. -/
def lb_go {α : Type} [LinearOrder α] [Inhabited α] (a : List α) (v : α) (len idx : ℕ) : ℕ :=
  if 1 < len then
    lb_go a v (len - len / 2)
      (idx + (if v ≤ a.getD (idx + len / 2 - 1) default then len / 2 else 0))
  else idx
termination_by len
decreasing_by omega

/-- `upper_bound(array, N, value, std::less_equal())` from `functional.cpp`. -/
def upper_bound {α : Type} [LinearOrder α] [Inhabited α] (a : List α) (v : α) : ℕ :=
  ub_go a v a.length 0

/-- `lower_bound(array, N, value, std::greater_equal())` from `functional.cpp`. -/
def lower_bound {α : Type} [LinearOrder α] [Inhabited α] (a : List α) (v : α) : ℕ :=
  lb_go a v a.length 0

/-- `search_sorted(x, value, size, inverted)` from `functional.cpp`. -/
def search_sorted {α : Type} [LinearOrder α] [Inhabited α]
    (a : List α) (v : α) (inverted : Bool) : ℕ :=
  if inverted then lower_bound a v else upper_bound a v

/-! ### OdeStepper (`rk2` in functional.cpp and _ufunc.pyx) -/

/-- Body of the `rk2` substep loop: `k1 = delta * fn(x0, y);
y += delta * fn(x0 + delta * 0.5, y + k1 * 0.5); x0 += delta`, iterated `n` times. -/
def rk2_go {α : Type} [LinearOrderedField α] (fn : α → α → α) (delta : α) :
    ℕ → α → α → α
  | 0, _, y => y
  | n + 1, x0, y =>
    rk2_go fn delta n (x0 + delta)
      (y + delta * fn (x0 + delta * 0.5) (y + (delta * fn x0 y) * 0.5))

/-- `rk2(fn, x0, x1, y, step)`: `delta = x1 - x0`; if `|delta| > step` then
`N = ceil(|delta| / step)` and `delta = delta / N`, else `N = 1`; then the substep loop. -/
def rk2 {α : Type} [LinearOrderedField α] [FloorRing α]
    (fn : α → α → α) (x0 x1 y step : α) : α :=
  let delta := x1 - x0
  let abs_delta := |delta|
  if abs_delta > step then
    let N : ℕ := (⌈abs_delta / step⌉).toNat
    rk2_go fn (delta / (N : α)) N x0 y
  else
    rk2_go fn delta 1 x0 y

/-! ### RootFinder (`fixed_point` in functional.cpp and _ufunc.pyx) -/

/-- Loop body of `fixed_point`: `p1 = fn(p0, x0, x1, x2); p2 = fn(p1, x0, x1, x2);
delta = p2 - 2*p1 + p0; if (delta) p2 = p0 - pow(p1 - p0, 2) / delta;
err = p2; if (p0) err = fabs((p2 - p0) / p0); if (err < eps) return p2; p0 = p2`.
The fuel argument is the remaining iteration budget; `none` models the NaN
returned when the budget is exhausted. -/
def fixed_point_go {α : Type} [LinearOrderedField α]
    (fn : α → α → α → α → α) (x0 x1 x2 eps : α) : ℕ → α → Option α
  | 0, _ => none
  | n + 1, p0 =>
    let p1 := fn p0 x0 x1 x2
    let p2 := fn p1 x0 x1 x2
    let delta := p2 - 2 * p1 + p0
    let p2 := if delta ≠ 0 then p0 - (p1 - p0) ^ 2 / delta else p2
    let err := if p0 ≠ 0 then |(p2 - p0) / p0| else p2
    if err < eps then some p2 else fixed_point_go fn x0 x1 x2 eps n p2

/-- `fixed_point(fn, x0, x1, x2, eps, max_iters)` from the `nzt` namespace. -/
def fixed_point {α : Type} [LinearOrderedField α]
    (fn : α → α → α → α → α) (x0 x1 x2 eps : α) (max_iters : ℕ) : Option α :=
  fixed_point_go fn x0 x1 x2 eps max_iters x0

/-- One iteration's (possibly accelerated) new estimate, factored out of the
`fixed_point` loop body for specification purposes. -/
def aitken_step {α : Type} [LinearOrderedField α]
    (fn : α → α → α → α → α) (x0 x1 x2 p0 : α) : α :=
  let p1 := fn p0 x0 x1 x2
  let p2 := fn p1 x0 x1 x2
  let delta := p2 - 2 * p1 + p0
  if delta ≠ 0 then p0 - (p1 - p0) ^ 2 / delta else p2

/-- The convergence error actually computed by `fixed_point`: the relative error
`|(p2 - p0) / p0|` when `p0 ≠ 0`, and otherwise the signed value `p2` itself. -/
def conv_err {α : Type} [LinearOrderedField α] (p0 p2 : α) : α :=
  if p0 ≠ 0 then |(p2 - p0) / p0| else p2

/-- Iteration counter for `fixed_point`: how many loop iterations are executed
before the function returns (whether by convergence or by budget exhaustion). -/
def fixed_point_count_go {α : Type} [LinearOrderedField α]
    (fn : α → α → α → α → α) (x0 x1 x2 eps : α) : ℕ → α → ℕ
  | 0, _ => 0
  | n + 1, p0 =>
    let p2 := aitken_step fn x0 x1 x2 p0
    if conv_err p0 p2 < eps then 1 else 1 + fixed_point_count_go fn x0 x1 x2 eps n p2

/-- Number of loop iterations executed by `fixed_point fn x0 x1 x2 eps max_iters`. -/
def fixed_point_count {α : Type} [LinearOrderedField α]
    (fn : α → α → α → α → α) (x0 x1 x2 eps : α) (max_iters : ℕ) : ℕ :=
  fixed_point_count_go fn x0 x1 x2 eps max_iters x0

/-- The fixed-point iteration as the specification words it, differing from
`fixed_point` only in the zero-estimate branch of the convergence test, which the
spec states as the absolute error `|p2|` (the code uses the signed `p2`). -/
def fixed_point_spec_go {α : Type} [LinearOrderedField α]
    (fn : α → α → α → α → α) (x0 x1 x2 eps : α) : ℕ → α → Option α
  | 0, _ => none
  | n + 1, p0 =>
    let p1 := fn p0 x0 x1 x2
    let p2 := fn p1 x0 x1 x2
    let delta := p2 - 2 * p1 + p0
    let p2 := if delta ≠ 0 then p0 - (p1 - p0) ^ 2 / delta else p2
    let err := if p0 ≠ 0 then |(p2 - p0) / p0| else |p2|
    if err < eps then some p2 else fixed_point_spec_go fn x0 x1 x2 eps n p2

/-- `fixed_point` as the specification describes it (absolute error `|p2|` when
`p0 = 0`), for comparison with the implemented `fixed_point`. -/
def fixed_point_spec {α : Type} [LinearOrderedField α]
    (fn : α → α → α → α → α) (x0 x1 x2 eps : α) (max_iters : ℕ) : Option α :=
  fixed_point_spec_go fn x0 x1 x2 eps max_iters x0

/-- The midpoint-rule substep as the specification words it:
`k1 = δ·fn(x, y); y ← y + δ·fn(x + δ/2, y + k1/2); x ← x + δ`. -/
def midpoint_step {α : Type} [LinearOrderedField α]
    (fn : α → α → α) (delta : α) (s : α × α) : α × α :=
  let k1 := delta * fn s.1 s.2
  (s.1 + delta, s.2 + delta * fn (s.1 + delta / 2) (s.2 + k1 / 2))

/-! ### FormulaLibrary (constants and closed-form functions of `_ufunc.pyx`, namespace `nzt`) -/

noncomputable section

/-- `(K)` freezing point in kelvin. -/
def T0 : ℝ := 273.15
/-- `(Pa)` vapor pressure at `T0`. -/
def E0 : ℝ := 611.21
/-- `(J/kg*K)` specific heat of dry air. -/
def Cpd : ℝ := 1004.6662184201462
/-- `(J/kg*K)` gas constant for dry air. -/
def Rd : ℝ := 287.04749097718457
/-- `(J/kg*K)` gas constant for water vapor. -/
def Rv : ℝ := 461.52311572606084
/-- `(J/kg)` latent heat of vaporization. -/
def Lv : ℝ := 2501000.0
/-- Ratio of gas constants `Rd / Rv`. -/
def epsilon : ℝ := Rd / Rv
/-- `(Pa)` standard pressure at sea level. -/
def P0 : ℝ := 100000.0

/-- `mixing_ratio(partial_press, total_press)`. -/
def mixing_ratio (e p : ℝ) : ℝ := epsilon * e / (p - e)

/-- `saturation_vapor_pressure(temperature)`. -/
def saturation_vapor_pressure (temperature : ℝ) : ℝ :=
  E0 * Real.exp (17.67 * (temperature - T0) / (temperature - 29.65))

/-- `virtual_temperature(temperature, mixing_ratio)`. -/
def virtual_temperature (temperature r : ℝ) : ℝ :=
  temperature * ((r + epsilon) / (epsilon * (1 + r)))

/-- `saturation_mixing_ratio(pressure, temperature)`. -/
def saturation_mixing_ratio (pressure temperature : ℝ) : ℝ :=
  epsilon * saturation_vapor_pressure temperature / (pressure - saturation_vapor_pressure temperature)

/-- `vapor_pressure(pressure, mixing_ratio)`. -/
def vapor_pressure (pressure r : ℝ) : ℝ := pressure * r / (epsilon + r)

/-- `dewpoint(vapor_pressure)` (one-argument overload). -/
def dewpoint (vp : ℝ) : ℝ :=
  T0 + 243.5 * Real.log (vp / E0) / (17.67 - Real.log (vp / E0))

/-- `dewpoint(pressure, mixing_ratio)` (two-argument overload). -/
def dewpoint2 (pressure r : ℝ) : ℝ := dewpoint (vapor_pressure pressure r)

/-- `exner_function(pressure, reference_pressure = P0)`. -/
def exner_function (pressure : ℝ) (reference_pressure : ℝ := P0) : ℝ :=
  (pressure / reference_pressure) ^ (Rd / Cpd)

/-- `potential_temperature(pressure, temperature)`. -/
def potential_temperature (pressure temperature : ℝ) : ℝ :=
  temperature / exner_function pressure

/-- `equivalent_potential_temperature(pressure, temperature, dewpoint)`. -/
def equivalent_potential_temperature (pressure temperature td : ℝ) : ℝ :=
  let r := saturation_mixing_ratio pressure td
  let e := saturation_vapor_pressure td
  let t_l := 56 + 1.0 / (1.0 / (td - 56) + Real.log (temperature / td) / 800.0)
  let th_l := potential_temperature (pressure - e) temperature * (temperature / t_l) ^ (0.28 * r)
  th_l * Real.exp (r * (1 + 0.448 * r) * (3036.0 / t_l - 1.78))

/-- `wet_bulb_potential_temperature(pressure, temperature, dewpoint)`. -/
def wet_bulb_potential_temperature (pressure temperature td : ℝ) : ℝ :=
  let theta_e := equivalent_potential_temperature pressure temperature td
  if theta_e ≤ 173.15 then theta_e
  else
    let x := theta_e / T0
    let x2 := x * x
    let x3 := x2 * x
    let x4 := x2 * x2
    let a := 7.101574 - 20.68208 * x + 16.11182 * x2 + 2.574631 * x3 - 5.205688 * x4
    let b := 1 - 3.552497 * x + 3.781782 * x2 - 0.6899655 * x3 - 0.5929340 * x4
    theta_e - Real.exp (a / b)

/-! ### CompositeSolvers (`moist_lapse`, `lcl_solver`, `lcl_pressure`, `lcl`,
`wet_bulb_temperature` in _ufunc.pyx) -/

/-- `moist_lapse_solver(pressure, temperature)`: the moist adiabatic lapse rate. -/
def moist_lapse_solver (pressure temperature : ℝ) : ℝ :=
  let r := saturation_mixing_ratio pressure temperature
  (Rd * temperature + Lv * r) /
    (Cpd + (Lv * Lv * r * epsilon / (Rd * temperature * temperature))) / pressure

/-- `moist_lapse(pressure, next_pressure, temperature, step)`. -/
def moist_lapse (pressure next_pressure temperature step : ℝ) : ℝ :=
  rk2 moist_lapse_solver pressure next_pressure temperature step

/-- Real logarithm restricted to its mathematical domain; `none` models the NaN the
code lets IEEE arithmetic produce on a domain violation (spec section 7). -/
def plog (x : ℝ) : Option ℝ := if 0 < x then some (Real.log x) else none

/-- Real power restricted to nonnegative bases; `none` models the NaN produced by
`pow` on a negative base with non-integer exponent. -/
def ppow (b e : ℝ) : Option ℝ := if 0 ≤ b then some (b ^ e) else none

/-- The rescaled pressure computed inside `lcl_solver`:
`td = dewpoint(pressure, mixing_ratio); p = reference_pressure * pow(td / temperature,
1.0 / (Rd / Cpd))`, with `none` marking the NaN outcomes of the log/pow domain
violations tracked by the final `isnan(p)` test. -/
def lcl_rescaled (pressure reference_pressure temperature r : ℝ) : Option ℝ := do
  let ln ← plog (vapor_pressure pressure r / E0)
  let td := T0 + 243.5 * ln / (17.67 - ln)
  let q ← ppow (td / temperature) (1.0 / (Rd / Cpd))
  some (reference_pressure * q)

/-- `lcl_solver(pressure, reference_pressure, temperature, mixing_ratio)`:
`return isnan(p) ? pressure : p`. -/
def lcl_solver (pressure reference_pressure temperature r : ℝ) : ℝ :=
  match lcl_rescaled pressure reference_pressure temperature r with
  | none => pressure
  | some p => p

/-- `lcl_pressure(pressure, temperature, dewpoint, eps, max_iters)`. -/
def lcl_pressure (pressure temperature td eps : ℝ) (max_iters : ℕ) : Option ℝ :=
  fixed_point lcl_solver pressure temperature
    (mixing_ratio (saturation_vapor_pressure td) pressure) eps max_iters

/-- `lcl(pressure, temperature, dewpoint, eps, max_iters)`: the LCL pressure and the
temperature derived from it; a NaN pressure propagates to a NaN temperature. -/
def lcl (pressure temperature td eps : ℝ) (max_iters : ℕ) : Option ℝ × Option ℝ :=
  let r := mixing_ratio (saturation_vapor_pressure td) pressure
  let lcl_p := fixed_point lcl_solver pressure temperature r eps max_iters
  (lcl_p, lcl_p.map (fun q => dewpoint2 q r))

/-- `wet_bulb_temperature(pressure, temperature, dewpoint, eps, step, max_iters)`;
a NaN LCL propagates through `moist_lapse` to a NaN result. -/
def wet_bulb_temperature (pressure temperature td eps step : ℝ) (max_iters : ℕ) :
    Option ℝ :=
  match lcl pressure temperature td eps max_iters with
  | (some lcl_p, some lcl_t) => some (moist_lapse lcl_p pressure lcl_t step)
  | _ => none

/-! ### VectorizedDispatcher entry points (the `_ufunc.pyx` elementwise wrappers,
which hard-code the published default parameters) -/

/-- The `wet_bulb_temperature` ufunc wrapper: `max_iter = 50`, `eps = 0.1`,
`step = 1000.0`. -/
def wet_bulb_temperature_ufunc (pressure temperature td : ℝ) : Option ℝ :=
  wet_bulb_temperature pressure temperature td 0.1 1000.0 50

/-- The `lcl_pressure` ufunc wrapper: `max_iter = 50`, `eps = 0.1`. -/
def lcl_pressure_ufunc (pressure temperature td : ℝ) : Option ℝ :=
  lcl_pressure pressure temperature td 0.1 50

/-- The `lcl` ufunc wrapper: `max_iter = 50`, `eps = 0.1`. -/
def lcl_ufunc (pressure temperature td : ℝ) : Option ℝ × Option ℝ :=
  lcl pressure temperature td 0.1 50

end

/-! ### Theorems: MonotonicSearch -/

section SearchProofs

variable {α : Type} [LinearOrder α] [Inhabited α]

/-- In a sorted list, the count of elements below `v` is at most any index whose
element is not below `v`. -/
lemma countP_lt_le_of_sorted (v : α) :
    ∀ a : List α, a.Sorted (· ≤ ·) → ∀ m, m < a.length → v ≤ a.getD m default →
      a.countP (fun x => decide (x < v)) ≤ m := by
  intro a
  induction a with
  | nil => intro _ m hm; simp at hm
  | cons x xs ih =>
    intro hs m hm hv
    obtain ⟨hx, hxs⟩ := List.sorted_cons.mp hs
    cases m with
    | zero =>
      rw [List.getD_cons_zero] at hv
      have h0 : xs.countP (fun x => decide (x < v)) = 0 := by
        refine List.countP_eq_zero.mpr ?_
        intro y hy
        simp only [decide_eq_true_eq]
        exact not_lt.mpr (hv.trans (hx y hy))
      rw [List.countP_cons, h0]
      simp [not_lt.mpr hv]
    | succ m =>
      rw [List.getD_cons_succ] at hv
      have hm' : m < xs.length := by simpa using hm
      have h1 := ih hxs m hm' hv
      rw [List.countP_cons]
      split <;> omega

/-- In a sorted list, an index whose element is below `v` is below the count of
elements below `v`. -/
lemma lt_countP_of_sorted (v : α) :
    ∀ a : List α, a.Sorted (· ≤ ·) → ∀ m, m < a.length → a.getD m default < v →
      m + 1 ≤ a.countP (fun x => decide (x < v)) := by
  intro a
  induction a with
  | nil => intro _ m hm; simp at hm
  | cons x xs ih =>
    intro hs m hm hv
    obtain ⟨hx, hxs⟩ := List.sorted_cons.mp hs
    cases m with
    | zero =>
      rw [List.getD_cons_zero] at hv
      rw [List.countP_cons]
      simp [hv]
    | succ m =>
      rw [List.getD_cons_succ] at hv
      have hm' : m < xs.length := by simpa using hm
      have h1 := ih hxs m hm' hv
      have hxv : x < v := by
        have hmem : xs.getD m default ∈ xs := by
          rw [List.getD_eq_getElem xs default hm']
          exact List.getElem_mem hm'
        exact lt_of_le_of_lt (hx _ hmem) hv
      rw [List.countP_cons]
      simp only [hxv, decide_true_eq_true, if_pos]
      omega

/-- Window invariant for the branchless binary-search loop: if the clamped
lower-bound index lies in the current window, the loop returns it. -/
lemma ub_go_eq_of_sorted (a : List α) (v : α) (hs : a.Sorted (· ≤ ·)) :
    ∀ len idx, idx + len ≤ a.length → 1 ≤ len →
      idx ≤ min (a.countP fun x => decide (x < v)) (a.length - 1) →
      min (a.countP fun x => decide (x < v)) (a.length - 1) ≤ idx + len - 1 →
      ub_go a v len idx = min (a.countP fun x => decide (x < v)) (a.length - 1) := by
  intro len
  induction len using Nat.strong_induction_on with
  | h len ih =>
    intro idx h1 h2 h3 h4
    rw [ub_go]
    by_cases hlen : 1 < len
    · rw [if_pos hlen]
      have hmid : idx + len / 2 - 1 < a.length := by omega
      by_cases hc : v ≤ a.getD (idx + len / 2 - 1) default
      · rw [if_pos hc]
        have hcount := countP_lt_le_of_sorted v a hs _ hmid hc
        exact ih (len - len / 2) (by omega) (idx + 0) (by omega) (by omega) (by omega)
          (by omega)
      · rw [if_neg hc]
        have hcount := lt_countP_of_sorted v a hs _ hmid (not_le.mp hc)
        exact ih (len - len / 2) (by omega) (idx + len / 2) (by omega) (by omega) (by omega)
          (by omega)
    · rw [if_neg hlen]
      omega

/-- `search_sorted` on a sorted, non-inverted, nonempty profile returns the count of
elements below the value — the first index whose element is not less than the value —
clamped to the last index. -/
lemma search_sorted_eq_min (a : List α) (v : α) (hs : a.Sorted (· ≤ ·)) (hne : a ≠ []) :
    search_sorted a v false = min (a.countP fun x => decide (x < v)) (a.length - 1) := by
  have hlen : 1 ≤ a.length := List.length_pos.mpr hne
  have h := ub_go_eq_of_sorted a v hs a.length 0 (by omega) hlen (by omega) (by omega)
  simpa [search_sorted, upper_bound] using h

/-- The loop never leaves the window: the result is at most `idx + len - 1`. -/
lemma ub_go_le_window (a : List α) (v : α) :
    ∀ len idx, 1 ≤ len → ub_go a v len idx ≤ idx + len - 1 := by
  intro len
  induction len using Nat.strong_induction_on with
  | h len ih =>
    intro idx h1
    rw [ub_go]
    by_cases hlen : 1 < len
    · rw [if_pos hlen]
      by_cases hc : v ≤ a.getD (idx + len / 2 - 1) default
      · rw [if_pos hc]
        have := ih (len - len / 2) (by omega) (idx + 0) (by omega)
        omega
      · rw [if_neg hc]
        have := ih (len - len / 2) (by omega) (idx + len / 2) (by omega)
        omega
    · rw [if_neg hlen]
      omega

end SearchProofs

/-- C1 (amended): for a sorted ascending non-inverted profile, `search_sorted`
returns the first index whose element is not less than the searched value — the
count of elements below the value — clamped to the last index `N - 1`; in
particular it returns `0` for `0.5` on `[1,2,3,4]`, but `3` (not the past-end
sentinel `4`) for the value `5`. -/
theorem search_sorted_ascending_clamped {α : Type} [LinearOrder α] [Inhabited α]
    (a : List α) (v : α) (hs : a.Sorted (· ≤ ·)) (hne : a ≠ []) :
    search_sorted a v false = min (a.countP fun x => decide (x < v)) (a.length - 1) :=
  search_sorted_eq_min a v hs hne

/-- Witness for C1 at the profile `[1,2,3,4]` and value `5`. -/
theorem search_sorted_ascending_clamped_witness :
    ([1, 2, 3, 4] : List ℚ).Sorted (· ≤ ·) ∧ ([1, 2, 3, 4] : List ℚ) ≠ [] ∧
      search_sorted ([1, 2, 3, 4] : List ℚ) 5 false =
        min (([1, 2, 3, 4] : List ℚ).countP fun x => decide (x < 5))
          (([1, 2, 3, 4] : List ℚ).length - 1) :=
  ⟨by decide, by decide,
    search_sorted_ascending_clamped ([1, 2, 3, 4] : List ℚ) 5 (by decide) (by decide)⟩

/-- Counterexample for C1 as stated: on `[1,2,3,4]` with value `5` (non-inverted),
`search_sorted` returns `3`, not the past-end sentinel index `4` the claim asserts. -/
theorem search_sorted_sentinel_counterexample :
    search_sorted ([1, 2, 3, 4] : List ℚ) 5 false = 3 ∧
      search_sorted ([1, 2, 3, 4] : List ℚ) 5 false ≠ 4 := by
  have h := search_sorted_eq_min ([1, 2, 3, 4] : List ℚ) 5 (by decide) (by decide)
  rw [h]
  refine ⟨by decide, by decide⟩

/-- C10: for a nonempty profile and any value, non-inverted `search_sorted` returns
an index no greater than `N - 1`; the past-end index `N` is never produced. -/
theorem search_sorted_index_le {α : Type} [LinearOrder α] [Inhabited α]
    (a : List α) (v : α) (hne : a ≠ []) :
    search_sorted a v false ≤ a.length - 1 := by
  have hlen : 1 ≤ a.length := List.length_pos.mpr hne
  have h := ub_go_le_window a v a.length 0 hlen
  simpa [search_sorted, upper_bound] using h

/-- Witness for C10 on the profile `[1,2,3,4]` with value `7`. -/
theorem search_sorted_index_le_witness :
    ([1, 2, 3, 4] : List ℚ) ≠ [] ∧
      search_sorted ([1, 2, 3, 4] : List ℚ) 7 false ≤ ([1, 2, 3, 4] : List ℚ).length - 1 :=
  ⟨by decide, search_sorted_index_le ([1, 2, 3, 4] : List ℚ) 7 (by decide)⟩

/-! ### Theorems: RootFinder -/

section RootFinderProofs

variable {α : Type} [LinearOrderedField α]

/-- One iteration of the `fixed_point` loop, written with the factored update
`aitken_step` and convergence error `conv_err`. -/
lemma fixed_point_go_succ (fn : α → α → α → α → α) (x0 x1 x2 eps p0 : α) (n : ℕ) :
    fixed_point_go fn x0 x1 x2 eps (n + 1) p0 =
      if conv_err p0 (aitken_step fn x0 x1 x2 p0) < eps then
        some (aitken_step fn x0 x1 x2 p0)
      else fixed_point_go fn x0 x1 x2 eps n (aitken_step fn x0 x1 x2 p0) := by
  simp only [fixed_point_go, aitken_step, conv_err]

/-- One iteration of the iteration counter. -/
lemma fixed_point_count_go_succ (fn : α → α → α → α → α) (x0 x1 x2 eps p0 : α) (n : ℕ) :
    fixed_point_count_go fn x0 x1 x2 eps (n + 1) p0 =
      if conv_err p0 (aitken_step fn x0 x1 x2 p0) < eps then 1
      else 1 + fixed_point_count_go fn x0 x1 x2 eps n (aitken_step fn x0 x1 x2 p0) := by
  simp only [fixed_point_count_go]

end RootFinderProofs

/-- C2 (amended): in every iteration of `fixed_point`, the convergence error is the
relative error `|(p2 - p0)/p0|` when the current estimate `p0` is non-zero, and
otherwise the signed value `p2` itself (no absolute value is taken); the iteration
succeeds and returns `p2` exactly when this error is below `eps`. -/
theorem fixed_point_convergence_test {α : Type} [LinearOrderedField α]
    (fn : α → α → α → α → α) (x0 x1 x2 eps p0 : α) (n : ℕ) :
    fixed_point_go fn x0 x1 x2 eps (n + 1) p0 =
      if conv_err p0 (aitken_step fn x0 x1 x2 p0) < eps then
        some (aitken_step fn x0 x1 x2 p0)
      else fixed_point_go fn x0 x1 x2 eps n (aitken_step fn x0 x1 x2 p0) :=
  fixed_point_go_succ fn x0 x1 x2 eps p0 n

/-- Counterexample for C2 as stated: with update map `p ↦ p - 5`, start `p0 = 0` and
`eps = 1/10`, the code's test `err = p2 = -10 < eps` succeeds at once and returns
`-10`, whereas the claim's absolute error `|p2| = 10` is not below `eps` — the
spec-worded iteration `fixed_point_spec` instead exhausts its budget and returns NaN. -/
theorem fixed_point_zero_branch_counterexample :
    fixed_point (fun p _ _ _ => p - 5) (0 : ℚ) 0 0 (1 / 10) 1 = some (-10) ∧
      fixed_point_spec (fun p _ _ _ => p - 5) (0 : ℚ) 0 0 (1 / 10) 1 = none := by
  constructor
  · norm_num [fixed_point, fixed_point_go]
  · norm_num [fixed_point_spec, fixed_point_spec_go]

/-- C3: if the convergence test is never satisfied, `fixed_point` returns NaN after
performing exactly `max_iters` loop iterations, and in particular never iterates
more than `max_iters` times. -/
theorem fixed_point_budget_exhaustion {α : Type} [LinearOrderedField α]
    (fn : α → α → α → α → α) (x0 x1 x2 eps : α) (m : ℕ)
    (h : ∀ p : α, ¬ conv_err p (aitken_step fn x0 x1 x2 p) < eps) :
    fixed_point fn x0 x1 x2 eps m = none ∧
      fixed_point_count fn x0 x1 x2 eps m = m ∧
        fixed_point_count fn x0 x1 x2 eps m ≤ m := by
  have key : ∀ (n : ℕ) (p0 : α), fixed_point_go fn x0 x1 x2 eps n p0 = none ∧
      fixed_point_count_go fn x0 x1 x2 eps n p0 = n := by
    intro n
    induction n with
    | zero => exact fun p0 => ⟨rfl, rfl⟩
    | succ n ihn =>
      intro p0
      constructor
      · rw [fixed_point_go_succ, if_neg (h p0)]
        exact (ihn _).1
      · rw [fixed_point_count_go_succ, if_neg (h p0), (ihn _).2]
        omega
  refine ⟨(key m x0).1, (key m x0).2, ?_⟩
  rw [fixed_point_count, (key m x0).2]

/-- Witness for C3: the map `p ↦ p + 1` with `eps = 0` never satisfies the
convergence test, so a budget of `3` iterations is fully used and NaN returned. -/
theorem fixed_point_budget_exhaustion_witness :
    fixed_point (fun q _ _ _ => q + 1) (0 : ℚ) 0 0 0 3 = none ∧
      fixed_point_count (fun q _ _ _ => q + 1) (0 : ℚ) 0 0 0 3 = 3 ∧
        fixed_point_count (fun q _ _ _ => q + 1) (0 : ℚ) 0 0 0 3 ≤ 3 :=
  fixed_point_budget_exhaustion (fun q _ _ _ => q + 1) 0 0 0 0 3 (by
    intro p
    have ha : aitken_step (fun q _ _ _ => q + 1) (0 : ℚ) 0 0 p = p + 1 + 1 := by
      simp only [aitken_step]
      rw [if_neg (by push_neg; ring)]
    rw [conv_err, ha]
    by_cases hp : p = 0
    · simp [hp]
    · rw [if_pos hp]
      exact not_lt.mpr (abs_nonneg _))

/-! ### Theorems: OdeStepper -/

/-- The midpoint substep written with the source's `* 0.5` halvings. -/
lemma midpoint_step_eq {α : Type} [LinearOrderedField α] (fn : α → α → α) (delta : α)
    (s : α × α) :
    midpoint_step fn delta s =
      (s.1 + delta,
        s.2 + delta * fn (s.1 + delta * 0.5) (s.2 + (delta * fn s.1 s.2) * 0.5)) := by
  have h1 : s.1 + delta / 2 = s.1 + delta * 0.5 := by ring
  have h2 : s.2 + delta * fn s.1 s.2 / 2 = s.2 + (delta * fn s.1 s.2) * 0.5 := by ring
  simp only [midpoint_step]
  rw [h1, h2]

/-- The `rk2` substep loop is the iterated midpoint rule. -/
lemma rk2_go_eq_iterate {α : Type} [LinearOrderedField α] (fn : α → α → α) (delta : α) :
    ∀ (n : ℕ) (x y : α), rk2_go fn delta n x y = ((midpoint_step fn delta)^[n] (x, y)).2 := by
  intro n
  induction n with
  | zero => intro x y; rfl
  | succ n ihn =>
    intro x y
    rw [Function.iterate_succ_apply, rk2_go, ihn, midpoint_step_eq]

/-- C4: with a positive step hint, `rk2` takes exactly one step when
`|x1 - x0| ≤ step`, else `N = ceil(|x1 - x0| / step)` equal substeps of signed size
`(x1 - x0) / N`, each substep applying the midpoint rule
`k1 = δ·fn(x, y); y ← y + δ·fn(x + δ/2, y + k1/2); x ← x + δ`. -/
theorem rk2_step_subdivision {α : Type} [LinearOrderedField α] [FloorRing α]
    (fn : α → α → α) (x0 x1 y step : α) (h : 0 < step) :
    rk2 fn x0 x1 y step =
      (let N : ℕ := if |x1 - x0| ≤ step then 1 else (⌈|x1 - x0| / step⌉).toNat
       ((midpoint_step fn ((x1 - x0) / (N : α)))^[N] (x0, y)).2) := by
  simp only [rk2]
  by_cases hc : |x1 - x0| ≤ step
  · rw [if_neg (not_lt.mpr hc), if_pos hc, rk2_go_eq_iterate]
    norm_num
  · rw [if_pos (not_le.mp hc), if_neg hc, rk2_go_eq_iterate]

/-- Witness for C4: integrating `fn(x, y) = x + y` from `0` to `3` with step hint `1`
subdivides into `N = 3` midpoint substeps. -/
theorem rk2_step_subdivision_witness :
    (0 : ℚ) < 1 ∧
      rk2 (fun x y => x + y) (0 : ℚ) 3 1 1 =
        (let N : ℕ := if |(3 : ℚ) - 0| ≤ 1 then 1 else (⌈|(3 : ℚ) - 0| / 1⌉).toNat
         ((midpoint_step (fun x y => x + y) (((3 : ℚ) - 0) / (N : ℚ)))^[N] ((0 : ℚ), 1)).2) :=
  ⟨by norm_num, rk2_step_subdivision (fun x y => x + y) 0 3 1 1 (by norm_num)⟩

/-! ### Theorems: FormulaLibrary and CompositeSolvers -/

/-- C5: `wet_bulb_potential_temperature` computes the equivalent potential
temperature `θe`; when `θe ≤ 173.15` it returns `θe` unchanged, and otherwise it
returns `θe` minus the exponential of a rational polynomial in `x = θe / T0` —
the branch threshold is exactly `θe = 173.15`. -/
theorem wet_bulb_potential_temperature_branch (p T td : ℝ) :
    wet_bulb_potential_temperature p T td =
      if equivalent_potential_temperature p T td ≤ 173.15 then
        equivalent_potential_temperature p T td
      else
        equivalent_potential_temperature p T td -
          Real.exp
            ((7.101574 - 20.68208 * (equivalent_potential_temperature p T td / T0) +
                16.11182 * (equivalent_potential_temperature p T td / T0) ^ 2 +
                2.574631 * (equivalent_potential_temperature p T td / T0) ^ 3 -
                5.205688 * (equivalent_potential_temperature p T td / T0) ^ 4) /
              (1 - 3.552497 * (equivalent_potential_temperature p T td / T0) +
                3.781782 * (equivalent_potential_temperature p T td / T0) ^ 2 -
                0.6899655 * (equivalent_potential_temperature p T td / T0) ^ 3 -
                0.5929340 * (equivalent_potential_temperature p T td / T0) ^ 4)) := by
  by_cases hθ : equivalent_potential_temperature p T td ≤ 173.15
  · simp only [wet_bulb_potential_temperature, if_pos hθ]
  · simp only [wet_bulb_potential_temperature, if_neg hθ]
    congr 2
    ring

/-- C6: `lcl_solver` returns the unmodified trial pressure whenever the rescaled
pressure (`reference_pressure * (td / temperature) ^ (1 / (Rd / Cpd))`) is NaN, and
the rescaled pressure otherwise. -/
theorem lcl_solver_nan_guard (pressure ref T r : ℝ) :
    (lcl_rescaled pressure ref T r = none → lcl_solver pressure ref T r = pressure) ∧
      ∀ q : ℝ, lcl_rescaled pressure ref T r = some q →
        lcl_solver pressure ref T r = q := by
  constructor
  · intro h
    unfold lcl_solver
    rw [h]
  · intro q h
    unfold lcl_solver
    rw [h]

/-- Witness for C6: a zero mixing ratio yields a zero vapor pressure, whose
logarithm is a domain violation (NaN), so the solver returns the trial pressure. -/
theorem lcl_solver_nan_guard_witness :
    lcl_rescaled (1000 : ℝ) 900 250 0 = none ∧ lcl_solver (1000 : ℝ) 900 250 0 = 1000 := by
  have hnone : lcl_rescaled (1000 : ℝ) 900 250 0 = none := by
    simp [lcl_rescaled, vapor_pressure, plog]
  exact ⟨hnone, (lcl_solver_nan_guard 1000 900 250 0).1 hnone⟩

/-- C7: for physically plausible temperatures the dewpoint of the saturation vapor
pressure recovers the temperature within `1e-6` relative tolerance (in exact real
arithmetic the round trip is the identity). -/
theorem dewpoint_svp_roundtrip (T : ℝ) (h : 100 ≤ T) :
    |dewpoint (saturation_vapor_pressure T) - T| ≤ 1 / 1000000 * |T| := by
  have h1 : (0 : ℝ) < T - 29.65 := by linarith
  have hT29 : T - 29.65 ≠ 0 := ne_of_gt h1
  have hE : E0 ≠ 0 := by rw [E0]; norm_num
  have hexact : dewpoint (saturation_vapor_pressure T) = T := by
    rw [dewpoint, saturation_vapor_pressure, T0]
    rw [mul_div_cancel_left₀ _ hE, Real.log_exp]
    have hL : (17.67 : ℝ) - 17.67 * (T - 273.15) / (T - 29.65) ≠ 0 := by
      have heq : (17.67 : ℝ) - 17.67 * (T - 273.15) / (T - 29.65) =
          17.67 * 243.5 / (T - 29.65) := by
        field_simp
        ring
      rw [heq]
      exact div_ne_zero (by norm_num) hT29
    field_simp
    ring
  rw [hexact, sub_self, abs_zero]
  positivity

/-- Witness for C7 at `T = 300` K. -/
theorem dewpoint_svp_roundtrip_witness :
    (100 : ℝ) ≤ 300 ∧
      |dewpoint (saturation_vapor_pressure 300) - 300| ≤ 1 / 1000000 * |(300 : ℝ)| :=
  ⟨by norm_num, dewpoint_svp_roundtrip 300 (by norm_num)⟩

/-- C8: `potential_temperature(100000.0, T) = T` for every temperature, because the
Exner function is `1` at the reference pressure `P0 = 100000` Pa. -/
theorem potential_temperature_at_reference (T : ℝ) :
    potential_temperature 100000.0 T = T := by
  rw [potential_temperature, exner_function, P0]
  rw [show (100000.0 : ℝ) / 100000.0 = 1 by norm_num, Real.one_rpow, div_one]

/-- C9: the exposed elementwise `wet_bulb_temperature`, `lcl_pressure` and `lcl`
operations call the underlying solvers with exactly the published defaults
`eps = 0.1`, `step = 1000.0` and `max_iter = 50`. -/
theorem ufunc_published_defaults (p T td : ℝ) :
    wet_bulb_temperature_ufunc p T td = wet_bulb_temperature p T td (1 / 10) 1000 50 ∧
      lcl_pressure_ufunc p T td = lcl_pressure p T td (1 / 10) 50 ∧
        lcl_ufunc p T td = lcl p T td (1 / 10) 50 := by
  refine ⟨?_, ?_, ?_⟩ <;>
    norm_num [wet_bulb_temperature_ufunc, lcl_pressure_ufunc, lcl_ufunc]

end nzt
